import Mathlib

/-!
Verification of the `solid_node` incremental build core
(`src/solid_node/node/base.py`) against its specification.

The Python code manipulates the filesystem (mtimes, file contents), spawns
an external renderer subprocess, and probes process liveness with
`os.kill(pid, 0)`.  We embed this shallowly:

* the filesystem is a map from path strings to an optional `FileInfo`
  (a file exists iff the map returns `some`; we track its mtime and its
  textual content; timestamps are naturals);
* OS interaction that the code observes (outcome of `os.kill(pid, 0)`,
  the pid `Popen` assigns, `os.getpid()`, `time.time()`) is packaged in an
  `Env` record;
* Python exceptions become `Except PyError`; the `StlRenderStart`
  control-flow exception of `generate_stl` is returned as data.

Each definition is a direct transcription of the corresponding Python
function, preserving evaluation order and short-circuiting.
-/

/-- Metadata of one file: its modification time and its textual content.
(`os.utime` only rewrites the mtime; `open(p, "w").write(s)` rewrites both.) -/
structure FileInfo where
  mtime : Nat
  content : String
deriving DecidableEq, Repr

/-- The filesystem state: a file exists iff `files` returns `some`. -/
structure FS where
  files : String → Option FileInfo

/-- Python exceptions that the modelled code can raise. -/
inductive PyError where
  | fileNotFoundError
  | permissionError
  | osError
deriving DecidableEq, Repr

/-- Outcome of the liveness probe `os.kill(pid, 0)`. -/
inductive KillResult where
  | ok
  | noSuchProcess
  | permissionDenied
deriving DecidableEq, Repr

/-- OS facts the code observes during one call: the probe outcome for each
pid, the pid and eventual exit code `Popen` gives the renderer subprocess,
the invoking process's own pid (`os.getpid()`, unused by the source), the
wall clock (`time.time()`), and the text `scad_render` produces. -/
structure Env where
  probe : Int → KillResult
  newPid : Nat
  exitCode : Int
  ownPid : Nat
  now : Nat
  scadCode : String

/-- Models `open(p, "w").write(c)`: (re)creates the file with the given content,
stamping the wall clock as mtime. -/
def FS.write (fs : FS) (p : String) (c : String) (now : Nat) : FS :=
  ⟨fun q => if q = p then some ⟨now, c⟩ else fs.files q⟩

/-- Models `os.utime(p, (atime, t))`: rewrites the stored mtime, keeping content.
Only meaningful when the file exists (callers check). -/
def FS.setMtime (fs : FS) (p : String) (t : Nat) : FS :=
  ⟨fun q => if q = p then (fs.files p).map (fun fi => ⟨t, fi.content⟩) else fs.files q⟩

/-- Models `os.remove(p)` after the caller has tolerated absence. -/
def FS.remove (fs : FS) (p : String) : FS :=
  ⟨fun q => if q = p then none else fs.files q⟩

/-- Models `os.path.getmtime(p)`, `none` when the path is missing (OSError). -/
def getmtime (fs : FS) (p : String) : Option Nat :=
  (fs.files p).map (fun fi => fi.mtime)

/-- The fields of `AbstractBaseNode` that the build machinery reads:
the rigidity flag, the contributing source files `self.files`, and the
derived artifact paths. -/
structure Node where
  rigid : Bool
  srcFiles : List String
  scad_file : String
  stl_file : String
  lock_file : String

/-- The mtimes of a list of paths, `none` as soon as one is missing
(the comprehension in `AbstractBaseNode.mtime` raises there). -/
def getAll (fs : FS) : List String → Option (List Nat)
  | [] => some []
  | p :: ps =>
    match fs.files p, getAll fs ps with
    | some fi, some ts => some (fi.mtime :: ts)
    | _, _ => none

/-- Models `AbstractBaseNode.mtime`: `max(os.path.getmtime(p) for p in self.files)`.
`none` models the exceptional cases: a missing contributing file, or the
empty set (Python `max([])` raises `ValueError`). -/
def Node.mtime (fs : FS) (n : Node) : Option Nat :=
  match getAll fs n.srcFiles with
  | some (t :: ts) => some (ts.foldl max t)
  | _ => none

/-- Models `AbstractBaseNode._up_to_date`:
`os.path.exists(path) and os.path.getmtime(path) == self.mtime`.
When the path is missing, Python's `and` short-circuits to `False` and
`self.mtime` is never evaluated; otherwise a missing contributing file
makes `self.mtime` raise (modelled as `.error .osError`). -/
def up_to_date (fs : FS) (n : Node) (path : String) : Except PyError Bool :=
  match fs.files path with
  | none => .ok false
  | some fi =>
    match n.mtime fs with
    | none => .error .osError
    | some lt => .ok (fi.mtime == lt)

theorem init_le_foldl_max (t : Nat) (ts : List Nat) : t ≤ ts.foldl max t := by
  induction ts generalizing t with
  | nil => simp
  | cons u us ih => exact le_trans (Nat.le_max_left t u) (ih (max t u))

theorem le_foldl_max (t x : Nat) (ts : List Nat) (hx : x = t ∨ x ∈ ts) :
    x ≤ ts.foldl max t := by
  induction ts generalizing t with
  | nil =>
    rcases hx with h | h
    · simp [h]
    · simp at h
  | cons u us ih =>
    simp only [List.foldl_cons]
    rcases hx with h | h
    · subst h
      exact le_trans (Nat.le_max_left x u) (init_le_foldl_max (max x u) us)
    · rcases List.mem_cons.mp h with h1 | h1
      · subst h1
        exact le_trans (Nat.le_max_right t x) (init_le_foldl_max (max t x) us)
      · exact ih (max t u) (Or.inr h1)

theorem foldl_max_mem (t : Nat) (ts : List Nat) :
    ts.foldl max t = t ∨ ts.foldl max t ∈ ts := by
  induction ts generalizing t with
  | nil => simp
  | cons u us ih =>
    simp only [List.foldl_cons]
    rcases ih (max t u) with h | h
    · rcases Nat.le_total t u with hle | hle
      · right
        rw [h, Nat.max_eq_right hle]
        exact List.mem_cons_self u us
      · left
        rw [h, Nat.max_eq_left hle]
    · right
      exact List.mem_cons_of_mem u h

theorem getAll_mem_mtime (fs : FS) (ps : List String) (ts : List Nat)
    (h : getAll fs ps = some ts) :
    (∀ p ∈ ps, ∃ t ∈ ts, getmtime fs p = some t) ∧
    (∀ t ∈ ts, ∃ p ∈ ps, getmtime fs p = some t) := by
  induction ps generalizing ts with
  | nil =>
    simp [getAll] at h
    subst h; simp
  | cons p ps ih =>
    simp only [getAll] at h
    rcases hp : fs.files p with _ | fi <;> rw [hp] at h
    · exact absurd h (by simp)
    · rcases hrest : getAll fs ps with _ | us <;> rw [hrest] at h
      · exact absurd h (by simp)
      · obtain ⟨h1, h2⟩ := ih us hrest
        obtain rfl : fi.mtime :: us = ts := by
          simpa using h
        constructor
        · intro q hq
          rcases List.mem_cons.mp hq with hq1 | hq1
          · exact ⟨fi.mtime, by simp, by simp [hq1, getmtime, hp]⟩
          · obtain ⟨t, ht, hgt⟩ := h1 q hq1
            exact ⟨t, by simp [ht], hgt⟩
        · intro t ht
          rcases List.mem_cons.mp ht with ht1 | ht1
          · exact ⟨p, by simp, by simp [getmtime, hp, ht1]⟩
          · obtain ⟨q, hq, hgt⟩ := h2 t ht1
            exact ⟨q, by simp [hq], hgt⟩

/-- Claim C1: `_up_to_date(path)` returns `True` iff the path exists and its
stored mtime is exactly equal to the node's logical time `self.mtime`, the
latter being the maximum mtime over the node's contributing source files
(every contributing file's mtime is at most `lt`, and `lt` is attained). -/
theorem up_to_date_spec (fs : FS) (n : Node) (path : String) (lt : Nat)
    (h : n.mtime fs = some lt) :
    (up_to_date fs n path = .ok true ↔
      (fs.files path).isSome ∧ getmtime fs path = some lt) ∧
    (∀ p ∈ n.srcFiles, ∃ t, getmtime fs p = some t ∧ t ≤ lt) ∧
    (∃ p ∈ n.srcFiles, getmtime fs p = some lt) := by
  have hmax : ∀ ts t, getAll fs n.srcFiles = some (t :: ts) →
      lt = ts.foldl max t := by
    intro ts t hg
    simp only [Node.mtime, hg] at h
    exact (Option.some_injective _ h).symm
  rcases hg : getAll fs n.srcFiles with _ | ts
  · simp [Node.mtime, hg] at h
  · rcases ts with _ | ⟨t, ts⟩
    · simp [Node.mtime, hg] at h
    · have hlt := hmax ts t hg
      obtain ⟨h1, h2⟩ := getAll_mem_mtime fs n.srcFiles (t :: ts) hg
      refine ⟨?_, ?_, ?_⟩
      · constructor
        · intro hu
          rcases hfp : fs.files path with _ | fi
          · simp [up_to_date, hfp] at hu
          · simp only [up_to_date, hfp, h] at hu
            refine ⟨by simp [hfp], ?_⟩
            simp only [Except.ok.injEq, beq_iff_eq] at hu
            simp [getmtime, hfp, hu]
        · rintro ⟨hex, hmt⟩
          rcases hfp : fs.files path with _ | fi
          · simp [hfp] at hex
          · simp only [getmtime, hfp, Option.map_some] at hmt
            simp only [up_to_date, hfp, h, Except.ok.injEq, beq_iff_eq]
            simpa using hmt
      · intro p hp
        obtain ⟨u, hu, hgu⟩ := h1 p hp
        exact ⟨u, hgu, hlt ▸ le_foldl_max t u ts (by simpa using hu)⟩
      · have := foldl_max_mem t ts
        rcases this with hm | hm
        · obtain ⟨p, hp, hgp⟩ := h2 t (by simp)
          exact ⟨p, hp, by rw [hgp, hlt, hm]⟩
        · obtain ⟨p, hp, hgp⟩ := h2 (ts.foldl max t) (by simp [hm])
          exact ⟨p, hp, by rw [hgp, hlt]⟩

/-- Concrete filesystem used to instantiate C1: two source files with
mtimes 3 and 7, and an artifact stamped 7. -/
def fsW1 : FS :=
  ⟨fun p =>
    if p = "a.py" then some ⟨3, "srcA"⟩
    else if p = "b.py" then some ⟨7, "srcB"⟩
    else if p = "out.stl" then some ⟨7, "mesh"⟩
    else none⟩

def nodeW1 : Node :=
  ⟨true, ["a.py", "b.py"], "out.scad", "out.stl", "out.stl.lock"⟩

theorem up_to_date_spec_witness :
    (up_to_date fsW1 nodeW1 "out.stl" = .ok true ↔
      (fsW1.files "out.stl").isSome ∧ getmtime fsW1 "out.stl" = some 7) ∧
    (∀ p ∈ nodeW1.srcFiles, ∃ t, getmtime fsW1 p = some t ∧ t ≤ 7) ∧
    (∃ p ∈ nodeW1.srcFiles, getmtime fsW1 p = some 7) :=
  up_to_date_spec fsW1 nodeW1 "out.stl" 7 (by decide)

/-- One decimal digit of Python's `int()` argument. -/
def digitVal (c : Char) : Option Nat :=
  if c.isDigit then some (c.toNat - Char.toNat '0') else none

def parseDigits : List Char → Option Nat → Option Nat
  | [], acc => acc
  | c :: cs, acc =>
    match digitVal c, acc with
    | some d, some a => parseDigits cs (some (a * 10 + d))
    | some d, none => parseDigits cs (some d)
    | none, _ => none

/-- Python's `int(s)` on the lock-file text: an optional sign followed by
at least one digit yields the integer, anything else raises `ValueError`
(`none` here; surrounding-whitespace tolerance is omitted — the code only
ever writes bare digits). -/
def parsePyInt (s : String) : Option Int :=
  match s.toList with
  | '-' :: cs => (parseDigits cs none).map (fun v => -(v : Int))
  | '+' :: cs => (parseDigits cs none).map (fun v => (v : Int))
  | cs => (parseDigits cs none).map (fun v => (v : Int))

/-- Models `AbstractBaseNode._stl_generation_locked`: open the lock file (missing
file means not locked), parse its content as an integer pid (parse failure
means not locked), probe the pid with `os.kill(pid, 0)`: success means
locked, `ProcessLookupError` means not locked, and any other error — in
particular `PermissionError` — is not caught and propagates. -/
def stl_generation_locked (env : Env) (fs : FS) (n : Node) : Except PyError Bool :=
  match fs.files n.lock_file with
  | none => .ok false
  | some fi =>
    match parsePyInt fi.content with
    | none => .ok false
    | some pid =>
      match env.probe pid with
      | .ok => .ok true
      | .noSuchProcess => .ok false
      | .permissionDenied => .error .permissionError

/-- Claim C5: the in-flight-render check reports not-locked when the lock
file is missing, when its content does not parse as an integer, or when the
stored pid is not a live process; it reports locked exactly when the stored
pid is live.  The hypothesis `hperm` restricts to environments where the
liveness probe never fails with a permission error (that corner is treated
in C10: there the check raises instead of reporting). -/
theorem stl_generation_locked_spec (env : Env) (fs : FS) (n : Node)
    (hperm : ∀ pid : Int, env.probe pid ≠ .permissionDenied) :
    (fs.files n.lock_file = none → stl_generation_locked env fs n = .ok false) ∧
    (∀ fi, fs.files n.lock_file = some fi → parsePyInt fi.content = none →
      stl_generation_locked env fs n = .ok false) ∧
    (∀ fi pid, fs.files n.lock_file = some fi → parsePyInt fi.content = some pid →
      env.probe pid = .noSuchProcess → stl_generation_locked env fs n = .ok false) ∧
    (stl_generation_locked env fs n = .ok true ↔
      ∃ fi pid, fs.files n.lock_file = some fi ∧ parsePyInt fi.content = some pid ∧
        env.probe pid = .ok) := by
  refine ⟨?_, ?_, ?_, ?_⟩
  · intro h
    simp [stl_generation_locked, h]
  · intro fi hfi hparse
    simp [stl_generation_locked, hfi, hparse]
  · intro fi pid hfi hparse hprobe
    simp [stl_generation_locked, hfi, hparse, hprobe]
  · constructor
    · intro h
      rcases hfi : fs.files n.lock_file with _ | fi
      · simp [stl_generation_locked, hfi] at h
      · rcases hparse : parsePyInt fi.content with _ | pid
        · simp [stl_generation_locked, hfi, hparse] at h
        · rcases hprobe : env.probe pid with _ | _ | _
          · exact ⟨fi, pid, hfi ▸ rfl, hparse, hprobe⟩
          · simp [stl_generation_locked, hfi, hparse, hprobe] at h
          · exact absurd hprobe (hperm pid)
    · rintro ⟨fi, pid, hfi, hparse, hprobe⟩
      simp [stl_generation_locked, hfi, hparse, hprobe]

def envW5 : Env := ⟨fun _ => .ok, 200, 0, 100, 50, "cube"⟩

/-- Concrete filesystem for C5: the lock file stores pid 42. -/
def fsW5 : FS :=
  ⟨fun p =>
    if p = "w5.py" then some ⟨3, "src"⟩
    else if p = "w5.stl.lock" then some ⟨9, "42"⟩
    else none⟩

def nodeW5 : Node := ⟨true, ["w5.py"], "w5.scad", "w5.stl", "w5.stl.lock"⟩

theorem stl_generation_locked_spec_witness :
    (fsW5.files nodeW5.lock_file = none →
      stl_generation_locked envW5 fsW5 nodeW5 = .ok false) ∧
    (∀ fi, fsW5.files nodeW5.lock_file = some fi → parsePyInt fi.content = none →
      stl_generation_locked envW5 fsW5 nodeW5 = .ok false) ∧
    (∀ fi pid, fsW5.files nodeW5.lock_file = some fi →
      parsePyInt fi.content = some pid → envW5.probe pid = .noSuchProcess →
      stl_generation_locked envW5 fsW5 nodeW5 = .ok false) ∧
    (stl_generation_locked envW5 fsW5 nodeW5 = .ok true ↔
      ∃ fi pid, fsW5.files nodeW5.lock_file = some fi ∧
        parsePyInt fi.content = some pid ∧ envW5.probe pid = .ok) :=
  stl_generation_locked_spec envW5 fsW5 nodeW5 (fun pid => by simp [envW5])

/-- The handle `Popen` returns: its pid and (eventual) exit status. -/
structure Proc where
  pid : Nat
  exitCode : Int
deriving DecidableEq, Repr

/-- The `StlRenderStart` exception payload: the subprocess handle, the
target binary path, the expected logical stamp time, and the lock path. -/
structure StlRenderStart where
  proc : Proc
  stl_file : String
  mtime : Nat
  lock_file : String
deriving DecidableEq, Repr

/-- Outcome of a `generate_stl` call that did not raise an OS error: the
final filesystem, the subprocess launched (if any), and the raised
`StlRenderStart` (if any). -/
structure GenStlResult where
  fs : FS
  launched : Option Proc
  job : Option StlRenderStart

/-- Models `AbstractBaseNode.generate_stl`, step for step:
return early when the stl is up to date, or the node is not rigid, or the
lock is held (Python's `or` evaluates the lock check only when the first
two disjuncts are falsy); otherwise open the lock file for writing
(truncating it), remove the stl tolerating absence, launch the renderer,
write the subprocess pid into the lock file, and raise `StlRenderStart`
whose `mtime` field evaluates `self.mtime` at raise time. -/
def generate_stl (env : Env) (n : Node) (fs : FS) : Except PyError GenStlResult :=
  match up_to_date fs n n.stl_file with
  | .error e => .error e
  | .ok utd =>
    if utd || !n.rigid then .ok ⟨fs, none, none⟩
    else
      match stl_generation_locked env fs n with
      | .error e => .error e
      | .ok true => .ok ⟨fs, none, none⟩
      | .ok false =>
        let fs1 := (fs.write n.lock_file "" env.now).remove n.stl_file
        let proc : Proc := ⟨env.newPid, env.exitCode⟩
        let fs2 := fs1.write n.lock_file (toString proc.pid) env.now
        match n.mtime fs2 with
        | none => .error .osError
        | some lt => .ok ⟨fs2, some proc, some ⟨proc, n.stl_file, lt, n.lock_file⟩⟩

theorem getAll_congr (fs fs2 : FS) (ps : List String)
    (h : ∀ p ∈ ps, fs2.files p = fs.files p) : getAll fs2 ps = getAll fs ps := by
  induction ps with
  | nil => rfl
  | cons p ps ih =>
    simp only [getAll]
    rw [h p (by simp), ih (fun q hq => h q (by simp [hq]))]

theorem mtime_congr (fs fs2 : FS) (n : Node)
    (h : ∀ p ∈ n.srcFiles, fs2.files p = fs.files p) :
    n.mtime fs2 = n.mtime fs := by
  simp only [Node.mtime, getAll_congr fs fs2 n.srcFiles h]

theorem mtime_after_lock_writes (env : Env) (n : Node) (fs : FS)
    (hlock : n.lock_file ∉ n.srcFiles) (hstl : n.stl_file ∉ n.srcFiles) :
    n.mtime (((fs.write n.lock_file "" env.now).remove n.stl_file).write
      n.lock_file (toString env.newPid) env.now) = n.mtime fs := by
  apply mtime_congr
  intro p hp
  have h1 : p ≠ n.lock_file := fun he => hlock (he ▸ hp)
  have h2 : p ≠ n.stl_file := fun he => hstl (he ▸ hp)
  simp [FS.write, FS.remove, h1, h2]

/-- Claim C2: `generate_stl` is a no-op — identical filesystem, no
subprocess launched, no `StlRenderStart` raised — exactly when the stl is
already up to date, or the node is non-rigid, or the lock is held by a live
process; in every other case it removes the stl (tolerating absence),
launches the renderer, and raises a `StlRenderStart` carrying the
subprocess handle, the stl path, the expected logical stamp time, and the
lock path.  Hypotheses: the contributing sources exist (`h1`), the build
artifacts are not among them, stl and lock paths differ, and the liveness
probe never fails with a permission error (that corner is C10). -/
theorem generate_stl_spec (env : Env) (n : Node) (fs : FS) (lt : Nat)
    (h1 : n.mtime fs = some lt)
    (hlock : n.lock_file ∉ n.srcFiles) (hstl : n.stl_file ∉ n.srcFiles)
    (hne : n.stl_file ≠ n.lock_file)
    (hperm : ∀ pid : Int, env.probe pid ≠ .permissionDenied) :
    (generate_stl env n fs = .ok ⟨fs, none, none⟩ ↔
      (up_to_date fs n n.stl_file = .ok true ∨ n.rigid = false ∨
        stl_generation_locked env fs n = .ok true)) ∧
    (¬(up_to_date fs n n.stl_file = .ok true ∨ n.rigid = false ∨
        stl_generation_locked env fs n = .ok true) →
      generate_stl env n fs =
        .ok ⟨((fs.write n.lock_file "" env.now).remove n.stl_file).write
              n.lock_file (toString env.newPid) env.now,
             some ⟨env.newPid, env.exitCode⟩,
             some ⟨⟨env.newPid, env.exitCode⟩, n.stl_file, lt, n.lock_file⟩⟩ ∧
      (((fs.write n.lock_file "" env.now).remove n.stl_file).write
        n.lock_file (toString env.newPid) env.now).files n.stl_file = none) := by
  have hb : ∃ b, up_to_date fs n n.stl_file = .ok b := by
    rcases hfp : fs.files n.stl_file with _ | fi
    · exact ⟨false, by simp [up_to_date, hfp]⟩
    · exact ⟨fi.mtime == lt, by simp [up_to_date, hfp, h1]⟩
  obtain ⟨b, hb⟩ := hb
  have hc : ∃ c, stl_generation_locked env fs n = .ok c := by
    rcases hfi : fs.files n.lock_file with _ | fi
    · exact ⟨false, by simp [stl_generation_locked, hfi]⟩
    · rcases hparse : parsePyInt fi.content with _ | pid
      · exact ⟨false, by simp [stl_generation_locked, hfi, hparse]⟩
      · rcases hp : env.probe pid with _ | _ | _
        · exact ⟨true, by simp [stl_generation_locked, hfi, hparse, hp]⟩
        · exact ⟨false, by simp [stl_generation_locked, hfi, hparse, hp]⟩
        · exact absurd hp (hperm pid)
  obtain ⟨c, hc⟩ := hc
  rcases b with _ | _
  · rcases hr : n.rigid with _ | _
    · -- not up to date, not rigid: no-op via the middle disjunct
      constructor
      · simp [generate_stl, hb, hr]
      · intro hno
        exact absurd (Or.inr (Or.inl rfl)) hno
    · rcases c with _ | _
      · -- proceed branch
        have hm2 := mtime_after_lock_writes env n fs hlock hstl
        rw [h1] at hm2
        constructor
        · constructor
          · intro he
            exfalso
            rw [generate_stl.eq_def, hb] at he
            simp only [hr, Bool.false_or, Bool.not_true] at he
            rw [hc] at he
            simp only [hm2] at he
            simp at he
          · intro hor
            rcases hor with h | h | h
            · rw [hb] at h
              simp at h
            · simp at h
            · rw [hc] at h
              simp at h
        · intro _
          constructor
          · rw [generate_stl.eq_def, hb]
            simp only [hr, Bool.false_or, Bool.not_true]
            rw [hc]
            simp [hm2]
          · simp [FS.write, FS.remove, hne]
      · -- lock held: no-op via the third disjunct
        constructor
        · simp [generate_stl, hb, hr, hc]
        · intro hno
          exact absurd (Or.inr (Or.inr hc)) hno
  · -- up to date: no-op via the first disjunct
    constructor
    · simp [generate_stl, hb]
    · intro hno
      exact absurd (Or.inl hb) hno

def envW2 : Env := ⟨fun _ => .noSuchProcess, 200, 0, 100, 50, "cube"⟩

/-- Concrete filesystem for C2: one source file, no stl, no lock. -/
def fsW2 : FS := ⟨fun p => if p = "w2.py" then some ⟨7, "src"⟩ else none⟩

def nodeW2 : Node := ⟨true, ["w2.py"], "w2.scad", "w2.stl", "w2.stl.lock"⟩

theorem generate_stl_spec_witness :
    (generate_stl envW2 nodeW2 fsW2 = .ok ⟨fsW2, none, none⟩ ↔
      (up_to_date fsW2 nodeW2 nodeW2.stl_file = .ok true ∨ nodeW2.rigid = false ∨
        stl_generation_locked envW2 fsW2 nodeW2 = .ok true)) ∧
    (¬(up_to_date fsW2 nodeW2 nodeW2.stl_file = .ok true ∨ nodeW2.rigid = false ∨
        stl_generation_locked envW2 fsW2 nodeW2 = .ok true) →
      generate_stl envW2 nodeW2 fsW2 =
        .ok ⟨((fsW2.write nodeW2.lock_file "" envW2.now).remove nodeW2.stl_file).write
              nodeW2.lock_file (toString envW2.newPid) envW2.now,
             some ⟨envW2.newPid, envW2.exitCode⟩,
             some ⟨⟨envW2.newPid, envW2.exitCode⟩, nodeW2.stl_file, 7, nodeW2.lock_file⟩⟩ ∧
      (((fsW2.write nodeW2.lock_file "" envW2.now).remove nodeW2.stl_file).write
        nodeW2.lock_file (toString envW2.newPid) envW2.now).files nodeW2.stl_file = none) :=
  generate_stl_spec envW2 nodeW2 fsW2 7 (by decide) (by decide) (by decide) (by decide)
    (fun pid => by simp [envW2])

def envW6 : Env := ⟨fun _ => .noSuchProcess, 200, 0, 100, 50, "cube"⟩

/-- Concrete filesystem for C6: one source file, no stl, no lock; the
invoking process has pid 100 while `Popen` assigns the renderer pid 200. -/
def fsW6 : FS := ⟨fun p => if p = "w6.py" then some ⟨7, "src"⟩ else none⟩

def nodeW6 : Node := ⟨true, ["w6.py"], "w6.scad", "w6.stl", "w6.stl.lock"⟩

/-- Claim C6 counterexample: when `generate_stl` proceeds, the identifier
written into the lock file is the renderer subprocess's pid (`proc.pid`,
here 200), not the invoking process's own pid (`os.getpid()`, here 100) as
the claim states. -/
theorem generate_stl_lock_own_pid_cex :
    (match generate_stl envW6 nodeW6 fsW6 with
     | .ok r => (r.fs.files nodeW6.lock_file).map (fun fi => fi.content)
     | .error _ => none) = some "200" ∧
    toString envW6.ownPid = "100" ∧ ("200" : String) ≠ "100" := by
  refine ⟨?_, by decide, by decide⟩
  decide

/-- Claim C6 (amended): when `generate_stl` proceeds past its no-op
conditions, the identifier written into the lock file is the pid of the
launched renderer subprocess — the same pid carried by the raised
`StlRenderStart`'s handle — not the invoking process's own identifier. -/
theorem generate_stl_lock_content (env : Env) (n : Node) (fs : FS) (lt : Nat)
    (h1 : n.mtime fs = some lt)
    (hlock : n.lock_file ∉ n.srcFiles) (hstl : n.stl_file ∉ n.srcFiles)
    (hutd : up_to_date fs n n.stl_file = .ok false)
    (hrigid : n.rigid = true)
    (hlkd : stl_generation_locked env fs n = .ok false) :
    ∃ r, generate_stl env n fs = .ok r ∧
      (r.fs.files n.lock_file).map (fun fi => fi.content) =
        some (toString env.newPid) ∧
      r.job.map (fun j => j.proc.pid) = some env.newPid ∧
      r.launched.map (fun p => p.pid) = some env.newPid := by
  have hm2 := mtime_after_lock_writes env n fs hlock hstl
  rw [h1] at hm2
  refine ⟨⟨((fs.write n.lock_file "" env.now).remove n.stl_file).write
            n.lock_file (toString env.newPid) env.now,
           some ⟨env.newPid, env.exitCode⟩,
           some ⟨⟨env.newPid, env.exitCode⟩, n.stl_file, lt, n.lock_file⟩⟩, ?_, ?_, ?_, ?_⟩
  · rw [generate_stl.eq_def, hutd]
    simp only [hrigid, Bool.false_or, Bool.not_true]
    rw [hlkd]
    simp [hm2]
  · simp [FS.write]
  · simp
  · simp

def envW6b : Env := ⟨fun _ => .noSuchProcess, 200, 0, 100, 50, "cube"⟩

def fsW6b : FS := ⟨fun p => if p = "w6b.py" then some ⟨7, "src"⟩ else none⟩

def nodeW6b : Node := ⟨true, ["w6b.py"], "w6b.scad", "w6b.stl", "w6b.stl.lock"⟩

theorem generate_stl_lock_content_witness :
    ∃ r, generate_stl envW6b nodeW6b fsW6b = .ok r ∧
      (r.fs.files nodeW6b.lock_file).map (fun fi => fi.content) =
        some (toString envW6b.newPid) ∧
      r.job.map (fun j => j.proc.pid) = some envW6b.newPid ∧
      r.launched.map (fun p => p.pid) = some envW6b.newPid :=
  generate_stl_lock_content envW6b nodeW6b fsW6b 7 (by decide) (by decide) (by decide)
    (by rfl) (by decide) (by rfl)

/-- Claim C10: the liveness probe only catches `ProcessLookupError`.  When
the lock file stores a valid integer pid of a live process the invoker may
not signal, `os.kill` fails with `PermissionError`, which propagates
uncaught out of `_stl_generation_locked` and (when the up-to-date and
rigidity guards do not short-circuit first) out of `generate_stl`: the
trigger aborts with the error instead of a locked-or-unlocked verdict. -/
theorem permission_error_propagates (env : Env) (n : Node) (fs : FS) (fi : FileInfo)
    (pid : Int)
    (hfi : fs.files n.lock_file = some fi)
    (hpid : parsePyInt fi.content = some pid)
    (hprobe : env.probe pid = .permissionDenied)
    (hutd : up_to_date fs n n.stl_file = .ok false)
    (hrigid : n.rigid = true) :
    stl_generation_locked env fs n = .error .permissionError ∧
    generate_stl env n fs = .error .permissionError := by
  have hlk : stl_generation_locked env fs n = .error .permissionError := by
    simp [stl_generation_locked, hfi, hpid, hprobe]
  refine ⟨hlk, ?_⟩
  rw [generate_stl.eq_def, hutd]
  simp only [hrigid, Bool.false_or, Bool.not_true]
  rw [hlk]
  simp

def envW10 : Env := ⟨fun _ => .permissionDenied, 200, 0, 100, 50, "cube"⟩

/-- Concrete filesystem for C10: the lock file stores pid 1 (a live
process owned by root), no stl artifact. -/
def fsW10 : FS :=
  ⟨fun p =>
    if p = "w10.py" then some ⟨7, "src"⟩
    else if p = "w10.stl.lock" then some ⟨9, "1"⟩
    else none⟩

def nodeW10 : Node := ⟨true, ["w10.py"], "w10.scad", "w10.stl", "w10.stl.lock"⟩

theorem permission_error_propagates_witness :
    stl_generation_locked envW10 fsW10 nodeW10 = .error .permissionError ∧
    generate_stl envW10 nodeW10 fsW10 = .error .permissionError :=
  permission_error_propagates envW10 nodeW10 fsW10 ⟨9, "1"⟩ 1 (by decide) (by decide)
    (by decide) (by rfl) (by decide)

/-- Models `AbstractBaseNode.generate_scad`: write the rendered scad text to the
scad file (the write itself stamps the wall clock), then `os.utime`
rewrites the file's mtime to `self.mtime`, evaluated after the write; the
progress `print` is not modelled.  A missing contributing file makes
`self.mtime` raise, after the file is already written. -/
def generate_scad (env : Env) (n : Node) (fs : FS) : Except PyError FS :=
  let fs1 := fs.write n.scad_file env.scadCode env.now
  match n.mtime fs1 with
  | none => .error .osError
  | some lt => .ok (fs1.setMtime n.scad_file lt)

/-- Claim C4: after `generate_scad` succeeds, the description file's
stored mtime equals the node's logical time (the maximum mtime over the
contributing files) — not the wall clock of the write; its content is the
rendered scad text, and no other path is touched. -/
theorem generate_scad_stamps (env : Env) (n : Node) (fs : FS) (lt : Nat)
    (h1 : n.mtime fs = some lt) (h2 : n.scad_file ∉ n.srcFiles) :
    ∃ fs2, generate_scad env n fs = .ok fs2 ∧
      getmtime fs2 n.scad_file = some lt ∧
      (fs2.files n.scad_file).map (fun fi => fi.content) = some env.scadCode ∧
      ∀ p, p ≠ n.scad_file → fs2.files p = fs.files p := by
  have hm1 : n.mtime (fs.write n.scad_file env.scadCode env.now) = some lt := by
    rw [mtime_congr fs (fs.write n.scad_file env.scadCode env.now) n, h1]
    intro p hp
    have hne : p ≠ n.scad_file := fun he => h2 (he ▸ hp)
    simp [FS.write, hne]
  refine ⟨(fs.write n.scad_file env.scadCode env.now).setMtime n.scad_file lt, ?_, ?_, ?_, ?_⟩
  · simp only [generate_scad]
    rw [hm1]
  · simp [FS.setMtime, FS.write, getmtime]
  · simp [FS.setMtime, FS.write]
  · intro p hp
    simp [FS.setMtime, FS.write, hp]

def envW4 : Env := ⟨fun _ => .noSuchProcess, 200, 0, 100, 50, "cube"⟩

/-- Concrete filesystem for C4: the node's sole source file has mtime 7
(which differs from the wall clock 50 of `envW4`). -/
def fsW4 : FS := ⟨fun p => if p = "w4.py" then some ⟨7, "src"⟩ else none⟩

def nodeW4 : Node := ⟨true, ["w4.py"], "w4.scad", "w4.stl", "w4.stl.lock"⟩

theorem generate_scad_stamps_witness :
    ∃ fs2, generate_scad envW4 nodeW4 fsW4 = .ok fs2 ∧
      getmtime fs2 nodeW4.scad_file = some 7 ∧
      (fs2.files nodeW4.scad_file).map (fun fi => fi.content) = some envW4.scadCode ∧
      ∀ p, p ≠ nodeW4.scad_file → fs2.files p = fsW4.files p :=
  generate_scad_stamps envW4 nodeW4 fsW4 7 (by decide) (by decide)

/-- Models `StlRenderStart.finish`: `os.utime` stamps the stl's mtime to the
job's expected logical time (`FileNotFoundError` when the stl is missing),
then removes the lock file only if it exists.  The subprocess handle — in
particular its exit status — is never consulted. -/
def StlRenderStart.finish (job : StlRenderStart) (fs : FS) : Except PyError FS :=
  match fs.files job.stl_file with
  | none => .error .fileNotFoundError
  | some _ =>
    let fs1 := fs.setMtime job.stl_file job.mtime
    if (fs1.files job.lock_file).isSome then .ok (fs1.remove job.lock_file)
    else .ok fs1

/-- Models `StlRenderStart.wait`: block on the subprocess — its exit status is
obtained and discarded — then `finish`. -/
def StlRenderStart.wait (job : StlRenderStart) (fs : FS) : Except PyError FS :=
  let _exitStatus := job.proc.exitCode
  job.finish fs

/-- Claim C7: finishing a pending job stamps the binary's mtime to the
expected logical time carried in the job, deletes the lock file only if it
exists (tolerating absence; afterwards it is gone either way), touches
nothing else, behaves identically for every subprocess exit status (no
exit-status check precedes the stamping), and `wait` reduces to `finish`
after the subprocess completes. -/
theorem finish_stamps_and_unlocks (job : StlRenderStart) (fs : FS) (fi : FileInfo)
    (hstl : fs.files job.stl_file = some fi)
    (hne : job.stl_file ≠ job.lock_file) :
    ∃ fs2, job.finish fs = .ok fs2 ∧
      getmtime fs2 job.stl_file = some job.mtime ∧
      fs2.files job.lock_file = none ∧
      (∀ p, p ≠ job.stl_file → p ≠ job.lock_file → fs2.files p = fs.files p) ∧
      (∀ e : Int,
        StlRenderStart.finish
          ⟨⟨job.proc.pid, e⟩, job.stl_file, job.mtime, job.lock_file⟩ fs =
          job.finish fs) ∧
      job.wait fs = job.finish fs := by
  have hne2 : job.lock_file ≠ job.stl_file := fun he => hne he.symm
  rcases hlk : fs.files job.lock_file with _ | lfi
  · -- lock absent: no removal happens
    refine ⟨fs.setMtime job.stl_file job.mtime, ?_, ?_, ?_, ?_, ?_, rfl⟩
    · rw [StlRenderStart.finish.eq_def, hstl]
      simp [FS.setMtime, hne2, hlk]
    · simp [FS.setMtime, getmtime, hstl]
    · simp [FS.setMtime, hne2, hlk]
    · intro p hp1 hp2
      simp [FS.setMtime, hp1]
    · intro e
      rfl
  · -- lock present: it is removed
    refine ⟨(fs.setMtime job.stl_file job.mtime).remove job.lock_file, ?_, ?_, ?_, ?_, ?_, rfl⟩
    · rw [StlRenderStart.finish.eq_def, hstl]
      simp [FS.setMtime, hne2, hlk]
    · simp [FS.remove, FS.setMtime, getmtime, hstl, hne]
    · simp [FS.remove]
    · intro p hp1 hp2
      simp [FS.remove, FS.setMtime, hp1, hp2]
    · intro e
      rfl

/-- Concrete job and filesystem for C7: stl present (stamped with the
wall clock 50), lock present, expected logical time 7. -/
def jobW7 : StlRenderStart := ⟨⟨200, 1⟩, "w7.stl", 7, "w7.stl.lock"⟩

def fsW7 : FS :=
  ⟨fun p =>
    if p = "w7.stl" then some ⟨50, "mesh"⟩
    else if p = "w7.stl.lock" then some ⟨50, "200"⟩
    else none⟩

theorem finish_stamps_and_unlocks_witness :
    ∃ fs2, jobW7.finish fsW7 = .ok fs2 ∧
      getmtime fs2 jobW7.stl_file = some jobW7.mtime ∧
      fs2.files jobW7.lock_file = none ∧
      (∀ p, p ≠ jobW7.stl_file → p ≠ jobW7.lock_file → fs2.files p = fsW7.files p) ∧
      (∀ e : Int,
        StlRenderStart.finish
          ⟨⟨jobW7.proc.pid, e⟩, jobW7.stl_file, jobW7.mtime, jobW7.lock_file⟩ fsW7 =
          jobW7.finish fsW7) ∧
      jobW7.wait fsW7 = jobW7.finish fsW7 :=
  finish_stamps_and_unlocks jobW7 fsW7 ⟨50, "mesh"⟩ (by decide) (by decide)

/-- The delegated capabilities `assemble` composes — `render()`,
`as_scad(rendered)`, the optimized-import decision of
`import_optimized()`, and the queued `operation.scad` transforms — all
opaque to the memoization logic under scrutiny; model objects are opaque
handles (naturals). -/
structure AsmEnv where
  render : Nat
  as_scad : Nat → Nat
  import_optimized : Nat → Nat
  operations : List (Nat → Nat)

/-- The per-instance state `assemble` touches: `self.root`,
`self._assembled` (initialized `False` in `__init__`, i.e. `none`), plus
one call counter per recomputable step (render+validate, scad generation,
transform application), used to observe recomputation. -/
structure AsmState where
  root : Option Nat
  assembled : Option Nat
  renderCount : Nat
  validateCount : Nat
  scadGenCount : Nat
  opsCount : Nat
deriving DecidableEq, Repr

/-- Models `AbstractBaseNode.assemble`: return the cached `self._assembled` when
it is set; otherwise store the root if given, render, validate, convert to
scad, generate the scad file, import the optimized model, apply the queued
operations in order, cache the result in `self._assembled` and return it. -/
def assemble (env : AsmEnv) (root : Option Nat) (st : AsmState) : AsmState × Nat :=
  match st.assembled with
  | some a => (st, a)
  | none =>
    let st1 : AsmState :=
      match root with
      | some r => { st with root := some r }
      | none => st
    let rendered := env.render
    let st2 := { st1 with renderCount := st1.renderCount + 1,
                          validateCount := st1.validateCount + 1 }
    let model := env.as_scad rendered
    let st3 := { st2 with scadGenCount := st2.scadGenCount + 1 }
    let imported := env.import_optimized model
    let assembled := env.operations.foldl (fun acc op => op acc) imported
    let st4 := { st3 with opsCount := st3.opsCount + 1, assembled := some assembled }
    (st4, assembled)

/-- The state as constructed by `__init__`: no root override, nothing
assembled, no step performed yet. -/
def initAsmState : AsmState := ⟨none, none, 0, 0, 0, 0⟩

/-- The node state after k successive `assemble()` calls on a fresh node. -/
def stateAfter (env : AsmEnv) : Nat → AsmState
  | 0 => initAsmState
  | k + 1 => (assemble env none (stateAfter env k)).1

theorem assemble_cached (env : AsmEnv) (root : Option Nat) (st : AsmState) (a : Nat)
    (h : st.assembled = some a) : assemble env root st = (st, a) := by
  simp [assemble, h]

/-- Claim C3: after the first `assemble()` call the node state never
changes again — every later call returns the identical cached model from
`self._assembled` — and render, validate, scad generation and transform
application have each run exactly once, no matter how many calls were
made. -/
theorem assemble_memoized (env : AsmEnv) (k : Nat) (h : 1 ≤ k) :
    stateAfter env k = stateAfter env 1 ∧
    (assemble env none (stateAfter env k)).2 = (assemble env none initAsmState).2 ∧
    (stateAfter env k).renderCount = 1 ∧
    (stateAfter env k).validateCount = 1 ∧
    (stateAfter env k).scadGenCount = 1 ∧
    (stateAfter env k).opsCount = 1 := by
  have hone : (stateAfter env 1).assembled = some ((assemble env none initAsmState).2) := rfl
  have hstable : ∀ m, 1 ≤ m → stateAfter env m = stateAfter env 1 := by
    intro m hm
    induction m with
    | zero => omega
    | succ j ih =>
      rcases Nat.eq_or_lt_of_le hm with he | hl
      · rw [← he]
      · have hj : 1 ≤ j := by omega
        have hsj := ih hj
        show (assemble env none (stateAfter env j)).1 = stateAfter env 1
        rw [hsj, assemble_cached env none (stateAfter env 1)
          ((assemble env none initAsmState).2) hone]
  have hk := hstable k h
  refine ⟨hk, ?_, ?_, ?_, ?_, ?_⟩
  · rw [hk, assemble_cached env none (stateAfter env 1)
      ((assemble env none initAsmState).2) hone]
  · rw [hk]
    rfl
  · rw [hk]
    rfl
  · rw [hk]
    rfl
  · rw [hk]
    rfl

/-- Concrete capabilities for C3: render yields handle 11, conversion
adds 1, import doubles, then two queued operations add 5 and triple. -/
def envW3 : AsmEnv :=
  ⟨11, fun m => m + 1, fun m => 2 * m, [fun m => m + 5, fun m => 3 * m]⟩

theorem assemble_memoized_witness :
    stateAfter envW3 4 = stateAfter envW3 1 ∧
    (assemble envW3 none (stateAfter envW3 4)).2 = (assemble envW3 none initAsmState).2 ∧
    (stateAfter envW3 4).renderCount = 1 ∧
    (stateAfter envW3 4).validateCount = 1 ∧
    (stateAfter envW3 4).scadGenCount = 1 ∧
    (stateAfter envW3 4).opsCount = 1 :=
  assemble_memoized envW3 4 (by decide)

/-- A node of the build tree as `trigger_stl` traverses it: an identifier
for the trace, whether this node's own `generate_stl()` raises
`StlRenderStart` (abstracting its up-to-date/rigid/lock decision), and the
ordered children. -/
inductive NodeTree where
  | mk (id : Nat) (raises : Bool) (children : List NodeTree)

/-- The operations `trigger_stl` performs on one node, in trace order:
its own `assemble()` and the attempt of its own `generate_stl()`. -/
inductive BuildEvent where
  | assembleEv (id : Nat)
  | generateStlEv (id : Nat)
deriving DecidableEq, Repr

mutual

/-- Models `AbstractBaseNode.trigger_stl`: `self.assemble()`, then
`child.trigger_stl()` for each child in listed order, then
`self.generate_stl()`.  The second component records whether a
`StlRenderStart` was raised; a raise aborts the traversal at that point,
so the node's own attempt happens only after every child was triggered
without raising. -/
def NodeTree.trigger_stl : NodeTree → List BuildEvent × Bool
  | .mk i w cs =>
    let r := triggerChildren cs
    if r.2 then (.assembleEv i :: r.1, true)
    else (.assembleEv i :: r.1 ++ [.generateStlEv i], w)

/-- The `for child in self.children:` loop of `trigger_stl`. -/
def triggerChildren : List NodeTree → List BuildEvent × Bool
  | [] => ([], false)
  | c :: cs =>
    let r1 := c.trigger_stl
    if r1.2 then (r1.1, true)
    else
      let r2 := triggerChildren cs
      (r1.1 ++ r2.1, r2.2)

end

theorem triggerChildren_no_raise (cs : List NodeTree)
    (h : (triggerChildren cs).2 = false) :
    (triggerChildren cs).1 = (cs.map (fun c => c.trigger_stl.1)).flatten := by
  induction cs with
  | nil => simp [triggerChildren]
  | cons c cs ih =>
    rcases hr1 : c.trigger_stl.2 with _ | _
    · have hrest : (triggerChildren cs).2 = false := by
        rw [triggerChildren.eq_def] at h
        simp only [hr1, Bool.false_eq_true, if_false] at h
        exact h
      rw [triggerChildren.eq_def]
      simp only [hr1, Bool.false_eq_true, if_false, List.map_cons, List.flatten_cons]
      rw [ih hrest]
    · exfalso
      rw [triggerChildren.eq_def] at h
      simp [hr1] at h

/-- Claim C8: one `trigger_stl` call on a node first performs the node's
own `assemble()`, then the full recursive trigger of every child in the
children's listed order, and attempts the node's own `generate_stl()` only
after all children have been triggered (hypothesis: no child raised a
pending-job signal, otherwise the traversal stops inside the children). -/
theorem trigger_stl_order (i : Nat) (w : Bool) (cs : List NodeTree)
    (h : (triggerChildren cs).2 = false) :
    (NodeTree.mk i w cs).trigger_stl.1 =
      .assembleEv i :: (cs.map (fun c => c.trigger_stl.1)).flatten ++
        [.generateStlEv i] := by
  rw [NodeTree.trigger_stl.eq_def]
  simp only [h, Bool.false_eq_true, if_false]
  rw [triggerChildren_no_raise cs h]

/-- Concrete tree for C8: a parent with two children, the second of which
itself has one child; nobody raises. -/
def treeW8 : List NodeTree := [.mk 1 false [], .mk 2 false [.mk 3 false []]]

theorem trigger_stl_order_witness :
    (NodeTree.mk 0 false treeW8).trigger_stl.1 =
      .assembleEv 0 :: (treeW8.map (fun c => c.trigger_stl.1)).flatten ++
        [.generateStlEv 0] :=
  trigger_stl_order 0 false treeW8
    (by simp [treeW8, NodeTree.trigger_stl, triggerChildren])

/-- Which `os.mkdir` calls succeed; `false` models a failure other than
already-exists — the loop's `os.path.exists` check precedes each call, so
a failure here is e.g. `PermissionError`, not `FileExistsError`. -/
structure MkdirEnv where
  mkdirOk : String → Bool

/-- Directory state, plus the record of `ipdb.set_trace()` invocations
(one entry per swallowed `os.mkdir` exception, tagged with the failing
path). -/
structure DirState where
  dirs : String → Bool
  debuggerCalls : List String

/-- Python's `build_dir.split('/')`. -/
def splitSlashChars : List Char → List (List Char)
  | [] => [[]]
  | c :: cs =>
    if c = '/' then [] :: splitSlashChars cs
    else
      match splitSlashChars cs with
      | [] => [[c]]
      | g :: gs => (c :: g) :: gs

def splitSlash (s : String) : List String :=
  (splitSlashChars s.toList).map (fun g => String.mk g)

/-- Python's `'/'.join(build_dirs)`. -/
def joinSlash : List String → String
  | [] => ""
  | [s] => s
  | s :: rest => s ++ "/" ++ joinSlash rest

/-- The `while path:` loop of `_make_build_dirs`: pop the next component,
join the accumulated prefix, and `os.mkdir` it when it does not exist; any
exception from `os.mkdir` is caught by the bare `except:`, which drops
into the interactive debugger (`import ipdb; ipdb.set_trace()`) and then
falls through (`pass`) — the loop continues with the next component. -/
def mkdirLoop (env : MkdirEnv) : List String → List String → DirState → DirState
  | [], _, st => st
  | p :: rest, acc, st =>
    let acc2 := acc ++ [p]
    let d := joinSlash acc2
    if st.dirs d then mkdirLoop env rest acc2 st
    else if env.mkdirOk d then
      mkdirLoop env rest acc2 ⟨fun q => if q = d then true else st.dirs q, st.debuggerCalls⟩
    else
      mkdirLoop env rest acc2 ⟨st.dirs, st.debuggerCalls ++ [d]⟩

/-- Models `AbstractBaseNode._make_build_dirs`: split `self.build_dir` on the
path separator and run the loop.  The return type already records the
behavior at failures: every run returns normally — no error propagates. -/
def make_build_dirs (env : MkdirEnv) (buildDir : String) (st : DirState) : DirState :=
  mkdirLoop env (splitSlash buildDir) [] st

/-- Environment for C9 in which every `os.mkdir` fails (say, the build
root sits in an unwritable location: `PermissionError`). -/
def envW9 : MkdirEnv := ⟨fun _ => false⟩

def dirsW9 : DirState := ⟨fun _ => false, []⟩

/-- Claim C9 divergence witness: with `build_dir = "_build/project"` and
every `os.mkdir` failing with a non-already-exists error, the constructor
helper returns normally — the bare `except:` swallowed both failures after
invoking the interactive debugger on each, no directory was created, and
no error propagated to abort the build, contrary to the claim and to the
spec's stated intent (which the spec itself records as a source defect). -/
theorem make_build_dirs_swallows_failure :
    (make_build_dirs envW9 "_build/project" dirsW9).debuggerCalls =
      ["_build", "_build/project"] ∧
    (make_build_dirs envW9 "_build/project" dirsW9).dirs "_build" = false ∧
    (make_build_dirs envW9 "_build/project" dirsW9).dirs "_build/project" = false := by
  refine ⟨by decide, by decide, by decide⟩
